import Mathlib

/-!
Verification of the DV repository's scrollytelling logic.

This file gives a shallow embedding of the scroll-to-step resolver
(src/section2/scroll-controller.js), the step transition controller with its
generation-token cancellation scheme (src/section2/plots/highlight-europe.js,
visualization part), the per-step render dispatch, and the early-exit error
handling of the chart initializers (src/section1/plots/*, plot4, and
initVisualization), and it proves the specified properties about them.

Rectangle coordinates and the viewport midpoint are modelled as rationals;
step numbers as integers.  A data-step attribute that does not parse to a
finite number is modelled as `none`.
-/

namespace ScrollController

/-- One `.scrolly-step` element as the resolver sees it: the parse result of
its `data-step` attribute (`none` when `parseInt` gives a non-finite value)
and the top/bottom extent of its bounding client rect. -/
structure StepEl where
  dataStep : Option Int
  top : ℚ
  bottom : ℚ
deriving DecidableEq, Repr

/-- Source condition `rect.top <= viewportMiddle && rect.bottom >= viewportMiddle`. -/
def containsMiddle (m : ℚ) (e : StepEl) : Bool :=
  decide (e.top ≤ m) && decide (e.bottom ≥ m)

/-- `Math.abs` on rationals. -/
def ratAbs (x : ℚ) : ℚ := if x < 0 then -x else x

/-- Unweighted distance of a step region to the viewport midpoint: distance
from the rect center when the region contains the midpoint, otherwise the
distance from the nearer boundary (scroll-controller.js lines 49-57). -/
def rawDistance (m : ℚ) (e : StepEl) : ℚ :=
  if containsMiddle m e then ratAbs ((e.top + e.bottom) / 2 - m)
  else if e.bottom < m then m - e.bottom
  else e.top - m

/-- Weighted distance, line 60: containing candidates keep their raw distance,
all other candidates get a finite additive penalty of 10000. -/
def weightedDistance (m : ℚ) (e : StepEl) : ℚ :=
  if containsMiddle m e then rawDistance m e else rawDistance m e + 10000

/-- Comparison against `bestDistance`, where `none` models the initial
`Number.POSITIVE_INFINITY`. -/
def ltInf (d : ℚ) : Option ℚ → Bool
  | none => true
  | some b => decide (d < b)

/-- The loop of `pickActiveStep`: fold over the step elements carrying
`bestStep` and `bestDistance`, skipping elements whose data-step is not
finite, replacing the best candidate on strictly smaller weighted distance. -/
def pickLoop (m : ℚ) : Int → Option ℚ → List StepEl → Int × Option ℚ
  | bestStep, bestDist, [] => (bestStep, bestDist)
  | bestStep, bestDist, e :: rest =>
    match e.dataStep with
    | none => pickLoop m bestStep bestDist rest
    | some stepNum =>
      let d := weightedDistance m e
      if ltInf d bestDist then pickLoop m stepNum (some d) rest
      else pickLoop m bestStep bestDist rest

/-- `pickActiveStep` (scroll-controller.js lines 33-68): returns 0 on an empty
step list, otherwise runs the loop starting from `bestStep = 0`,
`bestDistance = +infinity` and returns the final best step. -/
def pickActiveStep (m : ℚ) (steps : List StepEl) : Int :=
  if steps.isEmpty then 0 else (pickLoop m 0 none steps).1

/-- Controller state surrounding `updateOnScroll`. -/
structure CtrlState where
  currentStep : Int
  ticking : Bool
deriving DecidableEq, Repr

/-- `updateOnScroll` (lines 70-74): computes the active step; triggers a step
update only when it is truthy (nonzero) and differs from the current step;
always resets `ticking`.  The second component records the step a transition
was triggered to, `none` when no transition was triggered. -/
def updateOnScroll (m : ℚ) (steps : List StepEl) (s : CtrlState) : CtrlState × Option Int :=
  let stepNum := pickActiveStep m steps
  if stepNum ≠ 0 ∧ stepNum ≠ s.currentStep then
    (⟨stepNum, false⟩, some stepNum)
  else
    (⟨s.currentStep, false⟩, none)

/-- Scroll direction, part of the ambient event context that `pickActiveStep`
does not read. -/
inductive ScrollDir
  | up
  | down
deriving DecidableEq, Repr

/-- Ambient observer context at the moment the resolver is invoked: the
controller's mutable state, the direction of the scroll that caused the
event, and how many events were handled before.  The body of
`pickActiveStep` reads none of these. -/
structure ObserverContext where
  state : CtrlState
  dir : ScrollDir
  eventCount : Nat
deriving DecidableEq, Repr

/-- One invocation of the resolver in a given observer context: the source
body of `pickActiveStep` depends only on the viewport midpoint and the step
rects, never on the context. -/
def resolveActiveStep (_ctx : ObserverContext) (m : ℚ) (steps : List StepEl) : Int :=
  pickActiveStep m steps

/-- Throttle state around `onScrollOrResize`: the `ticking` flag and the
number of animation-frame callbacks currently scheduled and not yet run. -/
structure ThrottleState where
  ticking : Bool
  scheduled : Nat
deriving DecidableEq, Repr

/-- Initial throttle state: not ticking, nothing scheduled. -/
def initThrottle : ThrottleState := ⟨false, 0⟩

/-- `onScrollOrResize` (lines 76-80): when `ticking` is set the event is
dropped; otherwise `ticking` is set and one `requestAnimationFrame` callback
is scheduled. -/
def onScrollOrResize (s : ThrottleState) : ThrottleState :=
  if s.ticking then s else ⟨true, s.scheduled + 1⟩

/-- An animation frame firing: one scheduled callback (if any) runs
`updateOnScroll`, whose last action resets `ticking` (line 73). -/
def frameFire (s : ThrottleState) : ThrottleState :=
  if 0 < s.scheduled then ⟨false, s.scheduled - 1⟩ else s

/-- Throttle events: a scroll or resize DOM event, or an animation frame. -/
inductive SEvent
  | scrollOrResize
  | frame
deriving DecidableEq, Repr

/-- Throttle event dispatch. -/
def throttleStep (s : ThrottleState) : SEvent → ThrottleState
  | .scrollOrResize => onScrollOrResize s
  | .frame => frameFire s

/-- Run the throttle machine over a sequence of events from the initial
state. -/
def runThrottle (evs : List SEvent) : ThrottleState :=
  evs.foldl throttleStep initThrottle

end ScrollController

namespace Viz

/-- One scheduled `setTimeout` entry of the visualization: its timer id, the
generation token captured at scheduling time (`tokenAtSchedule`), and the
step whose deferred work it carries. -/
structure Timeout where
  id : Nat
  tokenAtSchedule : Nat
  step : Int
deriving DecidableEq, Repr

/-- State of the scrollytelling visualization handle
(visualization part of src/section2/plots/highlight-europe.js):
generation token, registry of pending timeouts, fresh timer id source,
current step, whether a resize-scheduled animation-frame callback is
pending (`resizeRaf`), whether the window resize listener is attached,
whether some D3 transition is in flight, whether `destroy` ran, the log of
deferred continuations that actually executed, and a count of render-path
DOM writes performed after `destroy`. -/
structure VizState where
  transitionToken : Nat
  pendingTimeouts : List Timeout
  nextId : Nat
  currentStep : Int
  rafPending : Bool
  resizeListener : Bool
  inflight : Bool
  destroyed : Bool
  executed : List Timeout
  mutationsAfterDestroy : Nat
deriving DecidableEq, Repr

/-- State right after `initVisualization` set everything up: token 0, no
pending work, resize listener attached. -/
def initState : VizState :=
  { transitionToken := 0, pendingTimeouts := [], nextId := 0, currentStep := 0,
    rafPending := false, resizeListener := true, inflight := false,
    destroyed := false, executed := [], mutationsAfterDestroy := 0 }

/-- A synchronous pass of the render path (clearLayers + a plot renderer):
it writes to the SVG layers and starts D3 transitions.  When it happens
after `destroy` the write goes to the detached SVG and is counted. -/
def recordRender (s : VizState) : VizState :=
  { s with inflight := true,
           mutationsAfterDestroy :=
             s.mutationsAfterDestroy + (if s.destroyed then 1 else 0) }

/-- `cancelPendingWork` (lines 194-200): clears every pending timeout and
interrupts all in-flight D3 transitions. -/
def cancelPendingWork (s : VizState) : VizState :=
  { s with pendingTimeouts := [], inflight := false }

/-- `schedule` (lines 202-210): registers a timeout that captured the given
token; the continuation will run only if that token is still current when
the timer fires. -/
def schedule (step : Int) (tok : Nat) (s : VizState) : VizState :=
  { s with pendingTimeouts := s.pendingTimeouts ++ [⟨s.nextId, tok, step⟩],
           nextId := s.nextId + 1 }

/-- `transitionToStep` (lines 230-266): increments the generation token,
cancels all previously scheduled deferred work, records the new current
step, then renders the step synchronously — except step 6, which only
schedules `renderSummary` on a 0ms timeout guarded by the new token. -/
def transitionToStep (step : Int) (s : VizState) : VizState :=
  let s1 := { s with transitionToken := s.transitionToken + 1 }
  let token := s1.transitionToken
  let s2 := cancelPendingWork s1
  let s3 := { s2 with currentStep := step }
  if step = 6 then schedule 6 token s3 else recordRender s3

/-- A `setTimeout` timer firing.  A cleared timer never fires, so only ids
still in the registry do anything: the entry is removed, and its
continuation runs (a render, logged in `executed`) only when the captured
token equals the current token (line 205). -/
def fireTimeout (id : Nat) (s : VizState) : VizState :=
  match s.pendingTimeouts.find? (fun t => t.id == id) with
  | none => s
  | some t =>
    let s1 := { s with pendingTimeouts := s.pendingTimeouts.filter (fun u => u.id != id) }
    if t.tokenAtSchedule = s1.transitionToken then
      recordRender { s1 with executed := s1.executed ++ [t] }
    else s1

/-- A window resize event: handled only while the listener is attached; the
handler cancels the previously scheduled animation frame and schedules a new
one (lines 158-173), leaving exactly one pending. -/
def resizeEvent (s : VizState) : VizState :=
  if s.resizeListener then { s with rafPending := true } else s

/-- The resize-scheduled animation-frame callback firing: if one is pending
it runs `if (currentStep) transitionToStep(currentStep)` (line 171). -/
def rafFire (s : VizState) : VizState :=
  if s.rafPending then
    let s1 := { s with rafPending := false }
    if s1.currentStep ≠ 0 then transitionToStep s1.currentStep s1 else s1
  else s

/-- An animation tick of an in-flight D3 transition: while a transition is
in flight it keeps writing attribute updates to the SVG. -/
def transitionTick (s : VizState) : VizState :=
  if s.inflight then
    { s with mutationsAfterDestroy :=
        s.mutationsAfterDestroy + (if s.destroyed then 1 else 0) }
  else s

/-- `destroy` (lines 280-284): removes the resize listener, cancels pending
timeouts, interrupts in-flight transitions, and removes the SVG.  It does
not touch `rafPending`. -/
def destroy (s : VizState) : VizState :=
  cancelPendingWork { s with resizeListener := false, destroyed := true }

/-- Events observable at the visualization handle. -/
inductive VEvent
  | call (step : Int)
  | fire (id : Nat)
  | resize
  | raf
  | tick
  | destroyEv
deriving DecidableEq, Repr

/-- Event dispatch. -/
def stepEv (s : VizState) : VEvent → VizState
  | .call n => transitionToStep n s
  | .fire id => fireTimeout id s
  | .resize => resizeEvent s
  | .raf => rafFire s
  | .tick => transitionTick s
  | .destroyEv => destroy s

/-- Run a sequence of events. -/
def run (evs : List VEvent) (s : VizState) : VizState :=
  evs.foldl stepEv s

/-- Fold of `transitionToStep` over a burst of rapid successive calls. -/
def runCalls (calls : List Int) (s : VizState) : VizState :=
  calls.foldl (fun s c => transitionToStep c s) s

/-- Fold of timer firings. -/
def runFires (ids : List Nat) (s : VizState) : VizState :=
  ids.foldl (fun s i => fireTimeout i s) s

end Viz

namespace Plots

/-- The render actions the step switch can dispatch
(highlight-europe.js / visualization part, lines 240-265). -/
inductive RenderAct
  | scatter (animate stagger : Bool)
  | highlight
  | histogram
  | comparison
  | trendLine
  | summary
deriving DecidableEq, Repr

/-- Operations a renderer performs on the three SVG layer groups, in order:
a `clearLayers` call, a draw of new content (axes, marks, labels), or an
in-place mutation of existing content. -/
inductive LayerOp
  | clear
  | draw
  | mutate
deriving DecidableEq, Repr

/-- renderScatter (plots/scatter.js): clearLayers first (line 16), then axes
and circles. -/
def scatterOps : List LayerOp := [.clear, .draw, .draw]

/-- highlightEurope (plots/highlight-europe.js): restyles the existing
circles and replaces the country labels; it never clears layers. -/
def highlightOps : List LayerOp := [.mutate, .draw]

/-- renderHistogram (plots/histogram.js): clearLayers (line 16), then axes
and bars. -/
def histogramOps : List LayerOp := [.clear, .draw, .draw]

/-- renderComparison (plots/comparison.js): clearLayers (line 17), then axes,
bars and labels. -/
def comparisonOps : List LayerOp := [.clear, .draw, .draw]

/-- renderTrendLine (plots/trend.js): clearLayers (line 17), then axes, line,
area, points and annotation. -/
def trendLineOps : List LayerOp := [.clear, .draw, .draw]

/-- renderSummary (plots/summary.js): renderTrendLine first, then the
headline annotation. -/
def summaryOps : List LayerOp := trendLineOps ++ [.draw]

/-- Layer operations of one render action. -/
def actOps : RenderAct → List LayerOp
  | .scatter _ _ => scatterOps
  | .highlight => highlightOps
  | .histogram => histogramOps
  | .comparison => comparisonOps
  | .trendLine => trendLineOps
  | .summary => summaryOps

/-- The step switch of `transitionToStep` (lines 240-265): the actions run
synchronously and the actions deferred via `schedule`.  Case 2 rebuilds the
scatter without animation before highlighting; case 6 only defers
`renderSummary`; every other step, including the `default` branch, is
rendered synchronously. -/
def transitionActs (step : Int) : List RenderAct × List RenderAct :=
  if step = 1 then ([.scatter true true], [])
  else if step = 2 then ([.scatter false true, .highlight], [])
  else if step = 3 then ([.histogram], [])
  else if step = 4 then ([.comparison], [])
  else if step = 5 then ([.trendLine], [])
  else if step = 6 then ([], [.summary])
  else ([.scatter true true], [])

/-- Layer operations of a list of render actions, in execution order. -/
def actsOps (acts : List RenderAct) : List LayerOp :=
  (acts.map actOps).flatten

/-- Outcome of a chart initializer: whether it rendered anything into the
page and whether it wrote an error to the console. -/
structure InitOutcome where
  rendered : Bool
  loggedError : Bool
deriving DecidableEq, Repr

/-- renderDummyPlot (section1/plots/plot.js lines 19-39): missing container
is a bare return; a failed D3 import logs an error and returns; otherwise it
draws. -/
def renderDummyPlot (containerExists d3Loads : Bool) : InitOutcome :=
  if !containerExists then ⟨false, false⟩
  else if !d3Loads then ⟨false, true⟩
  else ⟨true, false⟩

/-- renderPlot2 (section1/plots/plot2.js lines 6-17): same shape as
renderDummyPlot. -/
def renderPlot2 (containerExists d3Loads : Bool) : InitOutcome :=
  if !containerExists then ⟨false, false⟩
  else if !d3Loads then ⟨false, true⟩
  else ⟨true, false⟩

/-- renderPlot3 (section1/plots/plot3.js lines 6-14): missing container is a
bare return; a failed D3 import returns without logging. -/
def renderPlot3 (containerExists d3Loads : Bool) : InitOutcome :=
  if !containerExists then ⟨false, false⟩
  else if !d3Loads then ⟨false, false⟩
  else ⟨true, false⟩

/-- renderPlot4 (plot4.js lines 6-14): missing container is a bare return; a
failed D3 import returns without logging. -/
def renderPlot4 (containerExists d3Loads : Bool) : InitOutcome :=
  if !containerExists then ⟨false, false⟩
  else if !d3Loads then ⟨false, false⟩
  else ⟨true, false⟩

/-- initVisualization (highlight-europe.js / visualization part, lines
100-117): a missing container logs a console error and returns null; a
failed D3 import logs an error and returns null. -/
def initVisualization (containerExists d3Loads : Bool) : InitOutcome :=
  if !containerExists then ⟨false, true⟩
  else if !d3Loads then ⟨false, true⟩
  else ⟨true, false⟩

end Plots

open ScrollController Viz Plots

/-- A region that does not contain the midpoint is at strictly positive
boundary distance from it. -/
theorem rawDistance_pos_of_not_contains (m : ℚ) (e : StepEl)
    (h : containsMiddle m e = false) : 0 < rawDistance m e := by
  have h2 : ¬ (e.top ≤ m) ∨ ¬ (m ≤ e.bottom) := by
    by_contra hc
    push_neg at hc
    simp [containsMiddle, ge_iff_le, hc.1, hc.2] at h
  rw [rawDistance, if_neg (by simp [h])]
  by_cases hb : e.bottom < m
  · rw [if_pos hb]; linarith
  · rw [if_neg hb]
    push_neg at hb
    rcases h2 with h1 | h1
    · push_neg at h1; linarith
    · exact absurd hb h1

/-- Non-containing candidates have weighted distance strictly above the
10000 penalty. -/
theorem weightedDistance_gt_of_not_contains (m : ℚ) (e : StepEl)
    (h : containsMiddle m e = false) : 10000 < weightedDistance m e := by
  have := rawDistance_pos_of_not_contains m e h
  rw [weightedDistance, if_neg (by simp [h])]
  linarith

/-- Containing candidates keep their raw distance as weighted distance. -/
theorem weightedDistance_of_contains (m : ℚ) (e : StepEl)
    (h : containsMiddle m e = true) : weightedDistance m e = rawDistance m e := by
  rw [weightedDistance, if_pos (by simp [h])]

/-- Main loop invariant of `pickActiveStep`: the result either is the
initial accumulator untouched or stems from a list entry with a finite
data-step; the best distance never increases; and it is a lower bound of
every valid entry's weighted distance. -/
theorem pickLoop_invariant (m : ℚ) (l : List StepEl) : ∀ (bs : Int) (bd : Option ℚ),
    ((pickLoop m bs bd l = (bs, bd)) ∨
      ∃ e ∈ l, e.dataStep = some (pickLoop m bs bd l).1 ∧
        (pickLoop m bs bd l).2 = some (weightedDistance m e)) ∧
    (∀ b, bd = some b → ∃ v, (pickLoop m bs bd l).2 = some v ∧ v ≤ b) ∧
    (∀ e ∈ l, e.dataStep.isSome = true →
      ∃ v, (pickLoop m bs bd l).2 = some v ∧ v ≤ weightedDistance m e) := by
  induction l with
  | nil =>
    intro bs bd
    refine ⟨Or.inl rfl, fun b hb => ⟨b, by simp [pickLoop, hb], le_refl b⟩, by simp⟩
  | cons e rest ih =>
    intro bs bd
    cases he : e.dataStep with
    | none =>
      have hred : pickLoop m bs bd (e :: rest) = pickLoop m bs bd rest := by
        simp [pickLoop, he]
      obtain ⟨ihp, ihb, ihm⟩ := ih bs bd
      rw [hred]
      refine ⟨?_, ihb, ?_⟩
      · rcases ihp with h | ⟨f, hf, hfs⟩
        · exact Or.inl h
        · exact Or.inr ⟨f, List.mem_cons_of_mem _ hf, hfs⟩
      · intro f hf hfs
        rcases List.mem_cons.mp hf with rfl | hf2
        · rw [he] at hfs; simp at hfs
        · exact ihm f hf2 hfs
    | some k =>
      by_cases hlt : ltInf (weightedDistance m e) bd = true
      · have hred : pickLoop m bs bd (e :: rest) = pickLoop m k (some (weightedDistance m e)) rest := by
          simp [pickLoop, he, hlt]
        obtain ⟨ihp, ihb, ihm⟩ := ih k (some (weightedDistance m e))
        rw [hred]
        refine ⟨?_, ?_, ?_⟩
        · rcases ihp with h | ⟨f, hf, hfs⟩
          · right
            exact ⟨e, List.mem_cons_self e rest, by rw [h]; exact ⟨he, rfl⟩⟩
          · exact Or.inr ⟨f, List.mem_cons_of_mem _ hf, hfs⟩
        · intro b hb
          have hdb : weightedDistance m e < b := by
            rw [hb] at hlt; simpa [ltInf] using hlt
          obtain ⟨v, hv, hvle⟩ := ihb (weightedDistance m e) rfl
          exact ⟨v, hv, le_trans hvle (le_of_lt hdb)⟩
        · intro f hf hfs
          rcases List.mem_cons.mp hf with rfl | hf2
          · exact ihb (weightedDistance m f) rfl
          · exact ihm f hf2 hfs
      · have hlt2 : ltInf (weightedDistance m e) bd = false := by
          simpa using hlt
        have hb0 : ∃ b, bd = some b ∧ b ≤ weightedDistance m e := by
          cases hbd : bd with
          | none => rw [hbd] at hlt2; simp [ltInf] at hlt2
          | some b =>
            refine ⟨b, rfl, ?_⟩
            rw [hbd] at hlt2
            simpa [ltInf] using hlt2
        obtain ⟨b, hbd, hble⟩ := hb0
        have hred : pickLoop m bs bd (e :: rest) = pickLoop m bs bd rest := by
          simp [pickLoop, he, hlt2]
        obtain ⟨ihp, ihb, ihm⟩ := ih bs bd
        rw [hred]
        refine ⟨?_, ihb, ?_⟩
        · rcases ihp with h | ⟨f, hf, hfs⟩
          · exact Or.inl h
          · exact Or.inr ⟨f, List.mem_cons_of_mem _ hf, hfs⟩
        · intro f hf hfs
          rcases List.mem_cons.mp hf with rfl | hf2
          · obtain ⟨v, hv, hvle⟩ := ihb b hbd
            exact ⟨v, hv, le_trans hvle hble⟩
          · exact ihm f hf2 hfs

/-- Entries whose data-step did not parse to a finite number are skipped:
the loop computes the same result on the sublist of valid entries. -/
theorem pickLoop_filter (m : ℚ) (l : List StepEl) : ∀ (bs : Int) (bd : Option ℚ),
    pickLoop m bs bd l = pickLoop m bs bd (l.filter fun e => e.dataStep.isSome) := by
  induction l with
  | nil => intro bs bd; rfl
  | cons e rest ih =>
    intro bs bd
    cases he : e.dataStep with
    | none =>
      have hfil : (e :: rest).filter (fun e => e.dataStep.isSome) =
          rest.filter (fun e => e.dataStep.isSome) := by
        simp [List.filter_cons, he]
      rw [hfil]
      have hred : pickLoop m bs bd (e :: rest) = pickLoop m bs bd rest := by
        simp [pickLoop, he]
      rw [hred, ih]
    | some k =>
      have hfil : (e :: rest).filter (fun e => e.dataStep.isSome) =
          e :: rest.filter (fun e => e.dataStep.isSome) := by
        simp [List.filter_cons, he]
      rw [hfil]
      by_cases hlt : ltInf (weightedDistance m e) bd = true
      · have h1 : pickLoop m bs bd (e :: rest) =
            pickLoop m k (some (weightedDistance m e)) rest := by
          simp [pickLoop, he, hlt]
        have h2 : pickLoop m bs bd (e :: rest.filter (fun e => e.dataStep.isSome)) =
            pickLoop m k (some (weightedDistance m e))
              (rest.filter (fun e => e.dataStep.isSome)) := by
          simp [pickLoop, he, hlt]
        rw [h1, h2, ih]
      · have hlt2 : ltInf (weightedDistance m e) bd = false := by simpa using hlt
        have h1 : pickLoop m bs bd (e :: rest) = pickLoop m bs bd rest := by
          simp [pickLoop, he, hlt2]
        have h2 : pickLoop m bs bd (e :: rest.filter (fun e => e.dataStep.isSome)) =
            pickLoop m bs bd (rest.filter (fun e => e.dataStep.isSome)) := by
          simp [pickLoop, he, hlt2]
        rw [h1, h2, ih]

/-- The resolver gives the same answer on the original step list and on the
sublist of steps whose data-step parses to a finite number. -/
theorem pickActiveStep_filter (m : ℚ) (steps : List StepEl) :
    pickActiveStep m steps = pickActiveStep m (steps.filter fun e => e.dataStep.isSome) := by
  unfold pickActiveStep
  cases steps with
  | nil => rfl
  | cons e rest =>
    rw [if_neg (by simp)]
    by_cases hf : ((e :: rest).filter fun e => e.dataStep.isSome).isEmpty
    · rw [if_pos hf]
      rw [pickLoop_filter]
      have : ((e :: rest).filter fun e => e.dataStep.isSome) = [] :=
        List.isEmpty_iff.mp hf
      rw [this]
      rfl
    · rw [if_neg hf]
      rw [pickLoop_filter]

/-- C1 counterexample: the claim says the resolver returns the step whose
region contains the viewport midpoint whenever one exists.  With midpoint
500, step 1 spanning -60000..1000 contains the midpoint, step 2 spanning
600..700 does not, yet the resolver returns 2: the containing candidate's
center distance (30000) exceeds the nearest candidate's boundary distance
plus the finite 10000 penalty (10100), so "containing" is not weighted
infinitely higher. -/
theorem C1_counterexample :
    pickActiveStep 500 [⟨some 1, -60000, 1000⟩, ⟨some 2, 600, 700⟩] = 2 ∧
    containsMiddle 500 ⟨some 1, -60000, 1000⟩ = true ∧
    containsMiddle 500 ⟨some 2, 600, 700⟩ = false := by
  norm_num [pickActiveStep, pickLoop, weightedDistance, rawDistance, containsMiddle,
    ratAbs, ltInf]

/-- C1 (amended): for every viewport midpoint and every step-region list with
at least one finite-labeled entry, `pickActiveStep` returns the step of an
entry minimizing the weighted distance, where containing candidates use the
distance from their region center and all others their boundary distance
plus a finite penalty of 10000 (not an infinite weight).  Consequently the
returned entry contains the midpoint whenever some containing candidate has
center distance at most 10000, and when no region contains the midpoint the
returned entry has minimal boundary distance. -/
theorem C1_resolver_weighted_selection (m : ℚ) (steps : List StepEl)
    (h : ∃ e ∈ steps, e.dataStep.isSome = true) :
    ∃ e ∈ steps, e.dataStep = some (pickActiveStep m steps) ∧
      (∀ f ∈ steps, f.dataStep.isSome = true →
        weightedDistance m e ≤ weightedDistance m f) ∧
      (∀ f ∈ steps, f.dataStep.isSome = true → containsMiddle m f = true →
        rawDistance m f ≤ 10000 → containsMiddle m e = true) ∧
      ((∀ f ∈ steps, containsMiddle m f = false) →
        ∀ f ∈ steps, f.dataStep.isSome = true → rawDistance m e ≤ rawDistance m f) := by
  obtain ⟨e0, he0, hv0⟩ := h
  have hne : steps.isEmpty = false := by
    cases steps with
    | nil => simp at he0
    | cons a l => rfl
  have hpa : pickActiveStep m steps = (pickLoop m 0 none steps).1 := by
    simp [pickActiveStep, hne]
  obtain ⟨prov, _, minim⟩ := pickLoop_invariant m steps 0 none
  obtain ⟨v0, hv0eq, _⟩ := minim e0 he0 hv0
  rcases prov with hp | ⟨e, hes, heds, hesnd⟩
  · rw [hp] at hv0eq
    simp at hv0eq
  · have hmin : ∀ f ∈ steps, f.dataStep.isSome = true →
        weightedDistance m e ≤ weightedDistance m f := by
      intro f hf hfv
      obtain ⟨v, hveq, hvle⟩ := minim f hf hfv
      rw [hesnd] at hveq
      have : weightedDistance m e = v := by injection hveq
      rw [this]
      exact hvle
    refine ⟨e, hes, by rw [hpa]; exact heds, hmin, ?_, ?_⟩
    · intro f hf hfv hfc hfr
      by_contra hec
      have hec2 : containsMiddle m e = false := by simpa using hec
      have h1 : 10000 < weightedDistance m e :=
        weightedDistance_gt_of_not_contains m e hec2
      have h2 : weightedDistance m e ≤ weightedDistance m f := hmin f hf hfv
      have h3 : weightedDistance m f = rawDistance m f :=
        weightedDistance_of_contains m f hfc
      linarith
    · intro hall f hf hfv
      have he_nc : containsMiddle m e = false := hall e hes
      have hf_nc : containsMiddle m f = false := hall f hf
      have h2 : weightedDistance m e ≤ weightedDistance m f := hmin f hf hfv
      rw [weightedDistance, if_neg (by simp [he_nc]),
          weightedDistance, if_neg (by simp [hf_nc])] at h2
      linarith

/-- Witness for C1 (amended): a single step region 400..600 with label 3 and
midpoint 500. -/
theorem C1_resolver_weighted_selection_witness :
    ∃ e ∈ [(⟨some 3, 400, 600⟩ : StepEl)],
      e.dataStep = some (pickActiveStep 500 [⟨some 3, 400, 600⟩]) ∧
      (∀ f ∈ [(⟨some 3, 400, 600⟩ : StepEl)], f.dataStep.isSome = true →
        weightedDistance 500 e ≤ weightedDistance 500 f) ∧
      (∀ f ∈ [(⟨some 3, 400, 600⟩ : StepEl)], f.dataStep.isSome = true →
        containsMiddle 500 f = true →
        rawDistance 500 f ≤ 10000 → containsMiddle 500 e = true) ∧
      ((∀ f ∈ [(⟨some 3, 400, 600⟩ : StepEl)], containsMiddle 500 f = false) →
        ∀ f ∈ [(⟨some 3, 400, 600⟩ : StepEl)], f.dataStep.isSome = true →
          rawDistance 500 e ≤ rawDistance 500 f) :=
  C1_resolver_weighted_selection 500 [⟨some 3, 400, 600⟩]
    ⟨⟨some 3, 400, 600⟩, by simp, rfl⟩

/-- C4: the step resolver is deterministic: two invocations in arbitrary
observer contexts (current step, ticking flag, scroll direction, event
history) with the same viewport midpoint and the same step regions return
the same step number. -/
theorem C4_resolver_deterministic (m m2 : ℚ) (steps steps2 : List StepEl)
    (c1 c2 : ObserverContext) (hm : m = m2) (hs : steps = steps2) :
    resolveActiveStep c1 m steps = resolveActiveStep c2 m2 steps2 := by
  subst hm
  subst hs
  rfl

/-- Witness for C4: same midpoint and regions, maximally different contexts
(different current step, ticking flag, direction, event count). -/
theorem C4_resolver_deterministic_witness :
    resolveActiveStep ⟨⟨0, false⟩, ScrollDir.down, 0⟩ 500 [⟨some 3, 400, 600⟩] =
      resolveActiveStep ⟨⟨5, true⟩, ScrollDir.up, 99⟩ 500 [⟨some 3, 400, 600⟩] :=
  C4_resolver_deterministic 500 500 [⟨some 3, 400, 600⟩] [⟨some 3, 400, 600⟩]
    ⟨⟨0, false⟩, ScrollDir.down, 0⟩ ⟨⟨5, true⟩, ScrollDir.up, 99⟩ rfl rfl

/-- C9: the scroll handler never triggers a transition to step 0: a resolver
result of 0 is ignored by `updateOnScroll`, the empty step list resolves to
0, and steps whose data-step does not parse to a finite number are skipped
entirely by the resolver. -/
theorem C9_no_step_zero_transition (m : ℚ) (steps : List StepEl) (s : CtrlState) :
    (updateOnScroll m steps s).2 ≠ some 0 ∧
    (pickActiveStep m steps = 0 → (updateOnScroll m steps s).2 = none) ∧
    pickActiveStep m [] = 0 ∧
    pickActiveStep m steps = pickActiveStep m (steps.filter fun e => e.dataStep.isSome) := by
  refine ⟨?_, ?_, rfl, pickActiveStep_filter m steps⟩
  · by_cases hc : pickActiveStep m steps ≠ 0 ∧ pickActiveStep m steps ≠ s.currentStep
    · simp [updateOnScroll, hc, hc.1]
    · simp [updateOnScroll, hc]
  · intro h0
    simp [updateOnScroll, h0]

/-- Witness for C9: a concrete controller state and step list containing one
valid and one unparsable step. -/
theorem C9_no_step_zero_transition_witness :
    (updateOnScroll 500 [⟨none, 0, 100⟩, ⟨some 3, 400, 600⟩] ⟨1, false⟩).2 ≠ some 0 ∧
    (pickActiveStep 500 [⟨none, 0, 100⟩, ⟨some 3, 400, 600⟩] = 0 →
      (updateOnScroll 500 [⟨none, 0, 100⟩, ⟨some 3, 400, 600⟩] ⟨1, false⟩).2 = none) ∧
    pickActiveStep 500 [] = 0 ∧
    pickActiveStep 500 [⟨none, 0, 100⟩, ⟨some 3, 400, 600⟩] =
      pickActiveStep 500
        ([⟨none, 0, 100⟩, ⟨some 3, 400, 600⟩].filter fun e => e.dataStep.isSome) :=
  C9_no_step_zero_transition 500 [⟨none, 0, 100⟩, ⟨some 3, 400, 600⟩] ⟨1, false⟩

/-- The throttle invariant: exactly one animation-frame callback is scheduled
while `ticking` is set, none otherwise; preserved by every event. -/
theorem throttle_foldl_inv (evs : List SEvent) : ∀ s : ThrottleState,
    s.scheduled = (if s.ticking then 1 else 0) →
    (evs.foldl throttleStep s).scheduled =
      if (evs.foldl throttleStep s).ticking then 1 else 0 := by
  induction evs with
  | nil => intro s hs; exact hs
  | cons e rest ih =>
    intro s hs
    cases e with
    | scrollOrResize =>
      apply ih
      by_cases ht : s.ticking
      · simpa [throttleStep, onScrollOrResize, ht] using hs
      · have hs0 : s.scheduled = 0 := by rw [hs, if_neg ht]
        simp [throttleStep, onScrollOrResize, ht, hs0]
    | frame =>
      apply ih
      by_cases hp : 0 < s.scheduled
      · have hs1 : s.scheduled = 1 := by
          by_cases ht : s.ticking
          · rw [hs, if_pos ht]
          · rw [hs, if_neg ht] at hp
            omega
        simp [throttleStep, frameFire, hp, hs1]
      · simpa [throttleStep, frameFire, hp] using hs

/-- C6: the resolver is throttled to at most one scheduled run per animation
frame: after any event sequence at most one resolver run is scheduled, and
while one is pending (`ticking`), a further scroll/resize event schedules
nothing (the handler is the identity). -/
theorem C6_throttled_once_per_frame (evs : List SEvent) :
    (runThrottle evs).scheduled ≤ 1 ∧
    ((runThrottle evs).ticking = true →
      onScrollOrResize (runThrottle evs) = runThrottle evs) := by
  have h : (runThrottle evs).scheduled =
      if (runThrottle evs).ticking then 1 else 0 :=
    throttle_foldl_inv evs initThrottle rfl
  constructor
  · rw [h]
    split <;> omega
  · intro ht
    simp [onScrollOrResize, ht]

/-- Witness for C6: a single scroll event leaves one scheduled run, and a
further event while ticking is dropped. -/
theorem C6_throttled_once_per_frame_witness :
    (runThrottle [SEvent.scrollOrResize, SEvent.scrollOrResize]).scheduled ≤ 1 ∧
    ((runThrottle [SEvent.scrollOrResize, SEvent.scrollOrResize]).ticking = true →
      onScrollOrResize (runThrottle [SEvent.scrollOrResize, SEvent.scrollOrResize]) =
        runThrottle [SEvent.scrollOrResize, SEvent.scrollOrResize]) :=
  C6_throttled_once_per_frame [SEvent.scrollOrResize, SEvent.scrollOrResize]

/-- Each `transitionToStep` call increments the generation token by one. -/
theorem transitionToStep_token (step : Int) (s : VizState) :
    (transitionToStep step s).transitionToken = s.transitionToken + 1 := by
  by_cases h : step = 6 <;>
    simp [transitionToStep, cancelPendingWork, schedule, recordRender, h]

/-- After a `transitionToStep` call, every pending timeout was scheduled
under the now-current token: all older deferred work has been cancelled. -/
theorem transitionToStep_pending (step : Int) (s : VizState) :
    ∀ t ∈ (transitionToStep step s).pendingTimeouts,
      t.tokenAtSchedule = (transitionToStep step s).transitionToken := by
  intro t ht
  by_cases h : step = 6
  · simp [transitionToStep, cancelPendingWork, schedule, recordRender, h] at ht ⊢
    rw [ht]
  · simp [transitionToStep, cancelPendingWork, recordRender, h] at ht

/-- The pending-token invariant survives any burst of successive calls. -/
theorem runCalls_pending (calls : List Int) : ∀ (s : VizState),
    (∀ t ∈ s.pendingTimeouts, t.tokenAtSchedule = s.transitionToken) →
    ∀ t ∈ (runCalls calls s).pendingTimeouts,
      t.tokenAtSchedule = (runCalls calls s).transitionToken := by
  induction calls with
  | nil => intro s hs; exact hs
  | cons c rest ih =>
    intro s _
    simp only [runCalls, List.foldl_cons]
    exact ih (transitionToStep c s) (transitionToStep_pending c s)

/-- Firing a timer never changes the generation token. -/
theorem fireTimeout_token (id : Nat) (s : VizState) :
    (fireTimeout id s).transitionToken = s.transitionToken := by
  unfold fireTimeout
  cases h : s.pendingTimeouts.find? (fun t => t.id == id) with
  | none => rfl
  | some t =>
    by_cases h2 : t.tokenAtSchedule = s.transitionToken <;>
      simp [recordRender, h2]

/-- Firing a timer only removes entries from the pending registry. -/
theorem fireTimeout_pending_sub (id : Nat) (s : VizState) :
    ∀ t ∈ (fireTimeout id s).pendingTimeouts, t ∈ s.pendingTimeouts := by
  intro t ht
  unfold fireTimeout at ht
  cases h : s.pendingTimeouts.find? (fun t => t.id == id) with
  | none => rw [h] at ht; exact ht
  | some u =>
    rw [h] at ht
    by_cases h2 : u.tokenAtSchedule = s.transitionToken
    · simp [recordRender, h2] at ht
      exact ht.1
    · simp [recordRender, h2] at ht
      exact ht.1

/-- A continuation executes at a timer firing only when it was pending and
its captured token equals the current token. -/
theorem fireTimeout_executed (id : Nat) (s : VizState) :
    ∀ t ∈ (fireTimeout id s).executed,
      t ∈ s.executed ∨
        (t ∈ s.pendingTimeouts ∧ t.tokenAtSchedule = s.transitionToken) := by
  intro t ht
  unfold fireTimeout at ht
  cases h : s.pendingTimeouts.find? (fun t => t.id == id) with
  | none => rw [h] at ht; exact Or.inl ht
  | some u =>
    rw [h] at ht
    by_cases h2 : u.tokenAtSchedule = s.transitionToken
    · simp [recordRender, h2] at ht
      rcases ht with ht | ht
      · exact Or.inl ht
      · subst ht
        exact Or.inr ⟨List.mem_of_find?_eq_some h, h2⟩
    · simp [recordRender, h2] at ht
      exact Or.inl ht

/-- Over any sequence of timer firings, the token stays put, pending entries
keep the current token, and every newly executed continuation carries the
current token. -/
theorem runFires_exec (ids : List Nat) : ∀ (s : VizState),
    (∀ t ∈ s.pendingTimeouts, t.tokenAtSchedule = s.transitionToken) →
    (runFires ids s).transitionToken = s.transitionToken ∧
    (∀ t ∈ (runFires ids s).pendingTimeouts, t.tokenAtSchedule = s.transitionToken) ∧
    ∀ t ∈ (runFires ids s).executed,
      t ∈ s.executed ∨ t.tokenAtSchedule = s.transitionToken := by
  induction ids with
  | nil => intro s hs; exact ⟨rfl, hs, fun t ht => Or.inl ht⟩
  | cons i rest ih =>
    intro s hs
    have hrw : runFires (i :: rest) s = runFires rest (fireTimeout i s) := rfl
    rw [hrw]
    have htok := fireTimeout_token i s
    have hpend : ∀ t ∈ (fireTimeout i s).pendingTimeouts,
        t.tokenAtSchedule = (fireTimeout i s).transitionToken := by
      intro t ht
      rw [htok]
      exact hs t (fireTimeout_pending_sub i s t ht)
    obtain ⟨h1, h2, h3⟩ := ih (fireTimeout i s) hpend
    refine ⟨h1.trans htok, ?_, ?_⟩
    · intro t ht
      rw [← htok]
      exact h2 t ht
    · intro t ht
      rcases h3 t ht with h | h
      · rcases fireTimeout_executed i s t h with h4 | ⟨_, he⟩
        · exact Or.inl h4
        · exact Or.inr he
      · rw [htok] at h
        exact Or.inr h

/-- C2: each `transitionToStep` call increments the monotonically increasing
generation token and cancels previously scheduled deferred work (everything
still pending captured the new token); a deferred continuation executes only
if its captured token equals the current token at firing time; hence after a
burst of rapid successive calls followed by any timer firings, every newly
executed continuation carries the final generation token — a later step
transition always wins over a pending earlier one. -/
theorem C2_generation_token_cancellation (s0 : VizState) (firstStep : Int)
    (calls : List Int) (ids : List Nat) :
    (transitionToStep firstStep s0).transitionToken = s0.transitionToken + 1 ∧
    (∀ t ∈ (transitionToStep firstStep s0).pendingTimeouts,
      t.tokenAtSchedule = (transitionToStep firstStep s0).transitionToken) ∧
    (∀ id t, t ∈ (fireTimeout id s0).executed → t ∉ s0.executed →
      t.tokenAtSchedule = s0.transitionToken) ∧
    (∀ t ∈ (runFires ids (runCalls calls (transitionToStep firstStep s0))).executed,
      t ∈ (runCalls calls (transitionToStep firstStep s0)).executed ∨
        t.tokenAtSchedule =
          (runCalls calls (transitionToStep firstStep s0)).transitionToken) := by
  refine ⟨transitionToStep_token firstStep s0, transitionToStep_pending firstStep s0,
    ?_, ?_⟩
  · intro id t ht hnot
    rcases fireTimeout_executed id s0 t ht with h | ⟨_, he⟩
    · exact absurd h hnot
    · exact he
  · have hp : ∀ t ∈ (runCalls calls (transitionToStep firstStep s0)).pendingTimeouts,
        t.tokenAtSchedule =
          (runCalls calls (transitionToStep firstStep s0)).transitionToken :=
      runCalls_pending calls (transitionToStep firstStep s0)
        (transitionToStep_pending firstStep s0)
    exact (runFires_exec ids (runCalls calls (transitionToStep firstStep s0)) hp).2.2

/-- Witness for C2: from the initial state, two rapid calls to step 6 (each
scheduling deferred work) followed by firing both timer ids. -/
theorem C2_generation_token_cancellation_witness :
    (transitionToStep 6 initState).transitionToken = initState.transitionToken + 1 ∧
    (∀ t ∈ (transitionToStep 6 initState).pendingTimeouts,
      t.tokenAtSchedule = (transitionToStep 6 initState).transitionToken) ∧
    (∀ id t, t ∈ (fireTimeout id initState).executed → t ∉ initState.executed →
      t.tokenAtSchedule = initState.transitionToken) ∧
    (∀ t ∈ (runFires [0, 1] (runCalls [6] (transitionToStep 6 initState))).executed,
      t ∈ (runCalls [6] (transitionToStep 6 initState)).executed ∨
        t.tokenAtSchedule =
          (runCalls [6] (transitionToStep 6 initState)).transitionToken) :=
  C2_generation_token_cancellation initState 6 [6] [0, 1]

/-- After destruction, callback events (animation frames, resize events,
transition ticks, timer firings) are all no-ops on a state with no listener,
no pending timeout, no in-flight transition and no pending animation
frame. -/
theorem run_callbacks_frozen (evs : List VEvent) : ∀ (s : VizState),
    s.resizeListener = false → s.pendingTimeouts = [] → s.inflight = false →
    s.rafPending = false →
    (∀ e ∈ evs, e = VEvent.raf ∨ e = VEvent.resize ∨ e = VEvent.tick ∨
      ∃ id, e = VEvent.fire id) →
    run evs s = s := by
  induction evs with
  | nil => intro s _ _ _ _ _; rfl
  | cons e rest ih =>
    intro s h1 h2 h3 h4 hevs
    have hstep : stepEv s e = s := by
      rcases hevs e (List.mem_cons_self e rest) with he | he | he | ⟨id, he⟩ <;> subst he
      · simp [stepEv, rafFire, h4]
      · simp [stepEv, resizeEvent, h1]
      · simp [stepEv, transitionTick, h3]
      · simp [stepEv, fireTimeout, h2]
    have hrw : run (e :: rest) s = run rest (stepEv s e) := rfl
    rw [hrw, hstep]
    exact ih s h1 h2 h3 h4 (fun f hf => hevs f (List.mem_cons_of_mem _ hf))

/-- C3 counterexample: the claim says no callback scheduled before `destroy`
can mutate the DOM afterwards.  From the initial state: transition to step
1, then a resize event (which schedules an animation-frame callback), then
`destroy`, then the pending animation-frame callback fires — it runs
`transitionToStep(currentStep)` and performs a render-path DOM write after
destruction, while the same trace without the final frame callback performs
none. -/
theorem C3_counterexample :
    (run [VEvent.call 1, VEvent.resize, VEvent.destroyEv, VEvent.raf]
      initState).destroyed = true ∧
    0 < (run [VEvent.call 1, VEvent.resize, VEvent.destroyEv, VEvent.raf]
      initState).mutationsAfterDestroy ∧
    (run [VEvent.call 1, VEvent.resize, VEvent.destroyEv]
      initState).mutationsAfterDestroy = 0 := by
  decide

/-- C3 (amended): `destroy` detaches the resize listener, clears every
pending timeout and interrupts every in-flight transition, so timers and
transition ticks scheduled before the destroy can no longer mutate the DOM;
but a resize-scheduled animation-frame callback is not cancelled, so the
full freeze (any sequence of callback events leaves the destroyed state
untouched) holds exactly when no animation-frame callback is pending at
destroy time. -/
theorem C3_destroy_cancels_callbacks (s : VizState) (evs : List VEvent)
    (hevs : ∀ e ∈ evs, e = VEvent.raf ∨ e = VEvent.resize ∨ e = VEvent.tick ∨
      ∃ id, e = VEvent.fire id) :
    (destroy s).resizeListener = false ∧
    (destroy s).pendingTimeouts = [] ∧
    (destroy s).inflight = false ∧
    (s.rafPending = false → run evs (destroy s) = destroy s) := by
  refine ⟨rfl, rfl, rfl, ?_⟩
  intro hraf
  exact run_callbacks_frozen evs (destroy s) rfl rfl rfl hraf hevs

/-- Witness for C3 (amended): destroying the initial state (no pending
animation frame) and then firing a frame, a resize, a tick and a timer. -/
theorem C3_destroy_cancels_callbacks_witness :
    (destroy initState).resizeListener = false ∧
    (destroy initState).pendingTimeouts = [] ∧
    (destroy initState).inflight = false ∧
    (initState.rafPending = false →
      run [VEvent.raf, VEvent.resize, VEvent.tick, VEvent.fire 0]
        (destroy initState) = destroy initState) :=
  C3_destroy_cancels_callbacks initState
    [VEvent.raf, VEvent.resize, VEvent.tick, VEvent.fire 0]
    (by
      intro e he
      simp only [List.mem_cons, List.not_mem_nil, or_false] at he
      rcases he with rfl | rfl | rfl | rfl
      · exact Or.inl rfl
      · exact Or.inr (Or.inl rfl)
      · exact Or.inr (Or.inr (Or.inl rfl))
      · exact Or.inr (Or.inr (Or.inr ⟨0, rfl⟩)))

/-- C5: on every step change handled by `transitionToStep`, the previously
rendered visual layers are cleared before the new step's visualization is
drawn: for every step number, both the synchronous and the deferred layer
operations of the dispatched renderers either are empty or begin with a
`clearLayers` call, so every draw is preceded by a clear. -/
theorem C5_layers_cleared_before_draw (step : Int) :
    (actsOps (transitionActs step).1 = [] ∨
      (actsOps (transitionActs step).1).head? = some LayerOp.clear) ∧
    (actsOps (transitionActs step).2 = [] ∨
      (actsOps (transitionActs step).2).head? = some LayerOp.clear) := by
  unfold transitionActs
  split_ifs <;>
    simp [actsOps, actOps, scatterOps, highlightOps, histogramOps, comparisonOps,
      trendLineOps, summaryOps]

/-- C10: for every step number outside 1..6, `transitionToStep` dispatches
exactly what step 1 dispatches: a synchronous animated, staggered scatter
render and no deferred work. -/
theorem C10_default_renders_animated_scatter (step : Int)
    (h : step < 1 ∨ 6 < step) :
    transitionActs step = transitionActs 1 ∧
    transitionActs step = ([RenderAct.scatter true true], []) := by
  have h1 : step ≠ 1 := by rcases h with h | h <;> omega
  have h2 : step ≠ 2 := by rcases h with h | h <;> omega
  have h3 : step ≠ 3 := by rcases h with h | h <;> omega
  have h4 : step ≠ 4 := by rcases h with h | h <;> omega
  have h5 : step ≠ 5 := by rcases h with h | h <;> omega
  have h6 : step ≠ 6 := by rcases h with h | h <;> omega
  simp [transitionActs, h1, h2, h3, h4, h5, h6]

/-- Witness for C10: step 7 (and step 0) dispatch the animated, staggered
scatter exactly as step 1 does. -/
theorem C10_default_renders_animated_scatter_witness :
    transitionActs 7 = transitionActs 1 ∧
    transitionActs 7 = ([RenderAct.scatter true true], []) :=
  C10_default_renders_animated_scatter 7 (Or.inr (by decide))

/-- C7 counterexample: the claim says every chart component logs an error
when the dynamic D3 import fails.  renderPlot4 (plot4.js line 14,
`catch (err) { return; }`) aborts without logging anything. -/
theorem C7_counterexample :
    (renderPlot4 true false).rendered = false ∧
    (renderPlot4 true false).loggedError = false := by
  decide

/-- C7 (amended): for every chart component, a failed dynamic D3 import
aborts rendering for that component; renderDummyPlot, renderPlot2 and
initVisualization additionally log an error, while renderPlot3 and
renderPlot4 abort silently. -/
theorem C7_d3_failure_aborts :
    ((renderDummyPlot true false).rendered = false ∧
      (renderDummyPlot true false).loggedError = true) ∧
    ((renderPlot2 true false).rendered = false ∧
      (renderPlot2 true false).loggedError = true) ∧
    ((renderPlot3 true false).rendered = false ∧
      (renderPlot3 true false).loggedError = false) ∧
    ((renderPlot4 true false).rendered = false ∧
      (renderPlot4 true false).loggedError = false) ∧
    ((initVisualization true false).rendered = false ∧
      (initVisualization true false).loggedError = true) := by
  decide

/-- C8 counterexample: the claim says a missing container is a silent no-op
for every visualization initializer.  initVisualization (visualization part
of highlight-europe.js, line 103) logs a console error before returning
null. -/
theorem C8_counterexample :
    (initVisualization false true).rendered = false ∧
    (initVisualization false true).loggedError = true := by
  decide

/-- C8 (amended): whatever the D3 load outcome, every initializer returns
without rendering when its container element is missing; the four plot
initializers are silent, while initVisualization logs a console error. -/
theorem C8_missing_container_no_render (d3Loads : Bool) :
    ((renderDummyPlot false d3Loads).rendered = false ∧
      (renderDummyPlot false d3Loads).loggedError = false) ∧
    ((renderPlot2 false d3Loads).rendered = false ∧
      (renderPlot2 false d3Loads).loggedError = false) ∧
    ((renderPlot3 false d3Loads).rendered = false ∧
      (renderPlot3 false d3Loads).loggedError = false) ∧
    ((renderPlot4 false d3Loads).rendered = false ∧
      (renderPlot4 false d3Loads).loggedError = false) ∧
    ((initVisualization false d3Loads).rendered = false ∧
      (initVisualization false d3Loads).loggedError = true) := by
  cases d3Loads <;> decide
